import Mathlib

/-!
Shallow embedding of the Zumo Shield `CompassExample.ino` sketch
(`src/ZumoMotors/examples/CompassExample/CompassExample.ino`).

The sketch calibrates a magnetometer, converts raw magnetic vectors to a
heading in degrees, and drives a robot in squares by turning 90 degrees at a
time.  The embedding below models:

  * `vector`            — the `LSM303::vector` record used for readings and
                          for the calibration minima / maxima (the sketch only
                          ever stores integer sensor values in it);
  * `relativeHeading`   — the wrap of a heading difference into [-180, 180];
  * `running_min_init`, `running_max_init`, `calibStep`, `calibrate`
                        — the calibration loop of `setup()` as a fold over the
                          list of raw readings;
  * `x_scaled`, `y_scaled`, `angle`, `heading`
                        — the heading computation, with the float arithmetic
                          idealised over ℝ and `atan2` given by `Complex.arg`;
  * `turnSpeed`, `loopStep`
                        — one iteration of `loop()`, parameterised by the
                          target heading, the averaged current heading and the
                          heading resampled after driving straight; C integer
                          division and modulus are `Int.tdiv` / `Int.tmod`,
                          and the product `SPEED*relative_heading`, which can
                          exceed the AVR target's 16-bit `int`, wraps via
                          `wrap16`.
-/

/-- Model of `LSM303::vector`: one raw magnetometer reading (the sketch only
ever stores integer sensor values in the fields). -/
structure vector where
  x : Int
  y : Int
  z : Int
deriving DecidableEq, Repr

/-- `#define SPEED 200` — maximum motor speed when turning or going straight. -/
def SPEED : Int := 200

/-- `#define CALIBRATION_SAMPLES 70` — number of compass readings taken when
calibrating. -/
def CALIBRATION_SAMPLES : Nat := 70

/-- `#define DEVIATION_THRESHOLD 5` — allowed deviation (in degrees) relative
to the target angle that must be achieved before driving straight. -/
def DEVIATION_THRESHOLD : Int := 5

/-- `relativeHeading(heading_from, heading_to)`: the angle difference
`heading_to - heading_from` constrained to the -180 to 180 degree range by the
two sequential `if` corrections of the source. -/
def relativeHeading (heading_from heading_to : Int) : Int :=
  let relative_heading := heading_to - heading_from
  let r1 := if relative_heading > 180 then relative_heading - 360 else relative_heading
  if r1 < -180 then r1 + 360 else r1

lemma relativeHeading_mem (a b : Int)
    (ha0 : 0 ≤ a) (ha1 : a < 360) (hb0 : 0 ≤ b) (hb1 : b < 360) :
    -180 ≤ relativeHeading a b ∧ relativeHeading a b ≤ 180 := by
  unfold relativeHeading
  dsimp only
  split_ifs <;> omega

lemma relativeHeading_neg (a b : Int)
    (ha0 : 0 ≤ a) (ha1 : a < 360) (hb0 : 0 ≤ b) (hb1 : b < 360) :
    relativeHeading a b = -relativeHeading b a := by
  unfold relativeHeading
  dsimp only
  split_ifs <;> omega

/-- C1: for all headings `a`, `b` in [0, 360), `relativeHeading a b` lies in
[-180, 180] and `relativeHeading a b = -(relativeHeading b a)` — the
antisymmetry in fact holds exactly, including at the ±180 boundary, so in
particular it holds "mod sign at the boundary" as the claim states. -/
theorem relativeHeading_wrap_law (a b : Int)
    (ha0 : 0 ≤ a) (ha1 : a < 360) (hb0 : 0 ≤ b) (hb1 : b < 360) :
    (-180 ≤ relativeHeading a b ∧ relativeHeading a b ≤ 180) ∧
      relativeHeading a b = -relativeHeading b a :=
  ⟨relativeHeading_mem a b ha0 ha1 hb0 hb1,
   relativeHeading_neg a b ha0 ha1 hb0 hb1⟩

/-- Witness for C1 at the spec's concrete case `relativeHeading 10 350`:
the bounds hold and the wrapped values are the negations of one another
(`relativeHeading 10 350 = -20`). -/
theorem relativeHeading_wrap_law_witness :
    ((-180 ≤ relativeHeading 10 350 ∧ relativeHeading 10 350 ≤ 180) ∧
      relativeHeading 10 350 = -relativeHeading 350 10) ∧
      relativeHeading 10 350 = -20 :=
  ⟨relativeHeading_wrap_law 10 350 (by decide) (by decide) (by decide) (by decide),
   by decide⟩

/-- Two's-complement wraparound of the AVR target's 16-bit `int`: the value
congruent to `n` modulo 2^16 that lies in [-32768, 32767]. -/
def wrap16 (n : Int) : Int := (n + 32768) % 65536 - 32768

/-- The turning-branch speed of `loop()`:
`speed = SPEED*relative_heading/180`, then `speed -= 100` when negative else
`speed += 100`.  On the sketch's AVR target `int` is 16-bit, so the product
`SPEED*relative_heading` wraps (`wrap16`) — it overflows for reachable
`|relative_heading| ≥ 164` — and the C division truncates toward zero
(`Int.tdiv`).  The quotient lies in [-182, 182], so the later `∓100` offset
cannot overflow. -/
def turnSpeed (relative_heading : Int) : Int :=
  let speed := Int.tdiv (wrap16 (SPEED * relative_heading)) 180
  if speed < 0 then speed - 100 else speed + 100

/-- The observable outcome of one `loop()` iteration: the `setSpeeds`
commands issued, in order, and the value of `target_heading` afterwards. -/
structure LoopResult where
  commands : List (Int × Int)
  target_heading : Int
deriving DecidableEq, Repr

/-- One iteration of `loop()`, parameterised by the current value of the
static `target_heading`, the averaged heading read at the top of the
iteration, and the heading that `averageHeading()` would return when resampled
after the straight drive (only used on the straight branch). -/
def loopStep (target_heading current resampled : Int) : LoopResult :=
  let relative_heading := relativeHeading current target_heading
  if |relative_heading| < DEVIATION_THRESHOLD then
    { commands := [(SPEED, SPEED), (0, 0)],
      target_heading := Int.tmod (resampled + 90) 360 }
  else
    { commands := [(turnSpeed relative_heading, -turnSpeed relative_heading)],
      target_heading := target_heading }

/-- C6: whenever `|relative_heading| < DEVIATION_THRESHOLD`, the iteration
takes the straight branch: it commands `(SPEED, SPEED)`, then `(0, 0)`, and
sets `target_heading = (resampled + 90) mod 360` (for the nonnegative headings
produced by `averageHeading()` the C `%` agrees with the mathematical one). -/
theorem loopStep_straight (target current resampled : Int)
    (h : |relativeHeading current target| < DEVIATION_THRESHOLD)
    (hres : 0 ≤ resampled) :
    loopStep target current resampled =
      { commands := [(SPEED, SPEED), (0, 0)],
        target_heading := (resampled + 90) % 360 } := by
  unfold loopStep
  rw [if_pos h]
  have : Int.tmod (resampled + 90) 360 = (resampled + 90) % 360 :=
    Int.tmod_eq_emod (by omega) (by omega)
  rw [this]

/-- Witness for C6 at the spec's concrete case: `target = 90`,
`current = 88` gives `relativeHeading 88 90 = 2`, `|2| < 5`, and the straight
branch fires (with resampled heading 88 the new target is `178`). -/
theorem loopStep_straight_witness :
    relativeHeading 88 90 = 2 ∧
      loopStep 90 88 88 =
        { commands := [(200, 200), (0, 0)], target_heading := 178 } :=
  ⟨by decide,
   (loopStep_straight 90 88 88 (by decide) (by decide)).trans (by decide)⟩

/-- C7: whenever `|relative_heading| >= DEVIATION_THRESHOLD`, the iteration
takes the turning branch: `speed = SPEED*relative_heading/180` (the product
in the device's wrapping 16-bit `int`, the division truncating), offset by
`-100` when negative and `+100` otherwise, and the motors are commanded with
`(speed, -speed)`; `target_heading` is unchanged. -/
theorem loopStep_turning (target current resampled : Int)
    (h : DEVIATION_THRESHOLD ≤ |relativeHeading current target|) :
    loopStep target current resampled =
      { commands := [(turnSpeed (relativeHeading current target),
                      -turnSpeed (relativeHeading current target))],
        target_heading := target } ∧
      turnSpeed (relativeHeading current target) =
        (if Int.tdiv (wrap16 (SPEED * relativeHeading current target)) 180 < 0
        then
          Int.tdiv (wrap16 (SPEED * relativeHeading current target)) 180 - 100
        else
          Int.tdiv (wrap16 (SPEED * relativeHeading current target)) 180
            + 100) := by
  constructor
  · unfold loopStep
    rw [if_neg (by omega)]
  · rfl

/-- Witness for C7: `target = 180`, `current = 0` gives
`relativeHeading 0 180 = 180`, `|180| ≥ 5`; `200*180 = 36000` wraps to
`-29536` in 16-bit `int`, so the turning branch commands `(-264, 264)` and
leaves the target unchanged. -/
theorem loopStep_turning_witness :
    loopStep 180 0 0 = { commands := [(-264, 264)], target_heading := 180 } :=
  ((loopStep_turning 180 0 0 (by decide)).1).trans (by decide)

/-- The C library `atan2(y, x)` idealised over the reals: the argument of the
complex number with real part `x` and imaginary part `y`, which lies in
(-π, π]. -/
noncomputable def atan2 (y x : ℝ) : ℝ := Complex.arg ⟨x, y⟩

/-- The denominator `compass.m_max.x - compass.m_min.x` of the x-axis scaling
in `heading()`. -/
def xDivisor (m_min m_max : vector) : Int := m_max.x - m_min.x

/-- The denominator `compass.m_max.y - compass.m_min.y` of the y-axis scaling
in `heading()`. -/
def yDivisor (m_min m_max : vector) : Int := m_max.y - m_min.y

/-- `x_scaled = 2.0*(float)(v.x - compass.m_min.x) / (compass.m_max.x -
compass.m_min.x) - 1.0`, with the float arithmetic idealised over ℝ. -/
noncomputable def x_scaled (m_min m_max v : vector) : ℝ :=
  2 * ((v.x - m_min.x : Int) : ℝ) / ((xDivisor m_min m_max : Int) : ℝ) - 1

/-- `y_scaled = 2.0*(float)(v.y - compass.m_min.y) / (compass.m_max.y -
compass.m_min.y) - 1.0`, with the float arithmetic idealised over ℝ. -/
noncomputable def y_scaled (m_min m_max v : vector) : ℝ :=
  2 * ((v.y - m_min.y : Int) : ℝ) / ((yDivisor m_min m_max : Int) : ℝ) - 1

/-- `int angle = round(atan2(y_scaled, x_scaled)*180 / M_PI)`. -/
noncomputable def angle (m_min m_max v : vector) : Int :=
  round (atan2 (y_scaled m_min m_max v) (x_scaled m_min m_max v) * 180 / Real.pi)

/-- `heading(v)`: the angle in integer degrees, shifted by 360 when negative
so that the result lands in [0, 360). -/
noncomputable def heading (m_min m_max v : vector) : Int :=
  if angle m_min m_max v < 0 then angle m_min m_max v + 360
  else angle m_min m_max v

/-- `running_min` as initialised at the top of `setup()`:
`LSM303::vector running_min = {2047, 2047, 2047}`. -/
def running_min_init : vector := ⟨2047, 2047, 2047⟩

/-- `running_max` as initialised at the top of `setup()`:
`LSM303::vector running_max = {-2048, -2048, -2048}`. -/
def running_max_init : vector := ⟨-2048, -2048, -2048⟩

/-- One iteration of the calibration loop in `setup()`: fold one raw reading
`m` into the running minima / maxima (only the x and y axes are updated). -/
def calibStep (running_min running_max m : vector) : vector × vector :=
  (⟨min running_min.x m.x, min running_min.y m.y, running_min.z⟩,
   ⟨max running_max.x m.x, max running_max.y m.y, running_max.z⟩)

/-- The calibration loop of `setup()` over the list of raw readings the
sensor produced, starting from the sentinel vectors; returns the final
`(running_min, running_max)` pair copied into `compass.m_min` /
`compass.m_max`. -/
def calibrate (readings : List vector) : vector × vector :=
  readings.foldl (fun s m => calibStep s.1 s.2 m)
    (running_min_init, running_max_init)

/-- C4 counterexample: `setup()` does not initialise `running_max` to -2047
on each axis — the source initialises it to `{-2048, -2048, -2048}`. -/
theorem running_init_not_neg2047 :
    ¬(running_min_init = ⟨2047, 2047, 2047⟩ ∧
      running_max_init = ⟨-2047, -2047, -2047⟩) := by
  decide

/-- C4 (amended): `setup()` initialises `running_min` to +2047 on each axis
and `running_max` to -2048 on each axis before sampling begins. -/
theorem running_init_values :
    running_min_init = ⟨2047, 2047, 2047⟩ ∧
      running_max_init = ⟨-2048, -2048, -2048⟩ := by
  decide

lemma foldl_min_le_init (l : List Int) (init : Int) : l.foldl min init ≤ init := by
  induction l generalizing init with
  | nil => exact le_refl _
  | cons x xs ih =>
    calc (x :: xs).foldl min init = xs.foldl min (min init x) := rfl
      _ ≤ min init x := ih _
      _ ≤ init := min_le_left _ _

lemma foldl_min_le (l : List Int) (a init : Int) (h : a ∈ l) :
    l.foldl min init ≤ a := by
  induction l generalizing init with
  | nil => cases h
  | cons x xs ih =>
    rcases List.mem_cons.mp h with rfl | h2
    · calc (a :: xs).foldl min init = xs.foldl min (min init a) := rfl
        _ ≤ min init a := foldl_min_le_init _ _
        _ ≤ a := min_le_right _ _
    · exact ih _ h2

lemma init_le_foldl_max (l : List Int) (init : Int) : init ≤ l.foldl max init := by
  induction l generalizing init with
  | nil => exact le_refl _
  | cons x xs ih =>
    calc init ≤ max init x := le_max_left _ _
      _ ≤ xs.foldl max (max init x) := ih _
      _ = (x :: xs).foldl max init := rfl

lemma le_foldl_max (l : List Int) (a init : Int) (h : a ∈ l) :
    a ≤ l.foldl max init := by
  induction l generalizing init with
  | nil => cases h
  | cons x xs ih =>
    rcases List.mem_cons.mp h with rfl | h2
    · calc a ≤ max init a := le_max_right _ _
        _ ≤ xs.foldl max (max init a) := init_le_foldl_max _ _
        _ = (a :: xs).foldl max init := rfl
    · exact ih _ h2

lemma calibrate_fold_min_x (l : List vector) (s : vector × vector) :
    (l.foldl (fun s m => calibStep s.1 s.2 m) s).1.x =
      (l.map vector.x).foldl min s.1.x := by
  induction l generalizing s with
  | nil => rfl
  | cons m ms ih => simpa [calibStep] using ih (calibStep s.1 s.2 m)

lemma calibrate_fold_min_y (l : List vector) (s : vector × vector) :
    (l.foldl (fun s m => calibStep s.1 s.2 m) s).1.y =
      (l.map vector.y).foldl min s.1.y := by
  induction l generalizing s with
  | nil => rfl
  | cons m ms ih => simpa [calibStep] using ih (calibStep s.1 s.2 m)

lemma calibrate_fold_max_x (l : List vector) (s : vector × vector) :
    (l.foldl (fun s m => calibStep s.1 s.2 m) s).2.x =
      (l.map vector.x).foldl max s.2.x := by
  induction l generalizing s with
  | nil => rfl
  | cons m ms ih => simpa [calibStep] using ih (calibStep s.1 s.2 m)

lemma calibrate_fold_max_y (l : List vector) (s : vector × vector) :
    (l.foldl (fun s m => calibStep s.1 s.2 m) s).2.y =
      (l.map vector.y).foldl max s.2.y := by
  induction l generalizing s with
  | nil => rfl
  | cons m ms ih => simpa [calibStep] using ih (calibStep s.1 s.2 m)

/-- C5: over any run of exactly `CALIBRATION_SAMPLES = 70` readings,
`calibrate` returns per-axis minima (maxima) that are the fold of `min`
(`max`) of the sentinel initial value over all sampled x / y components; and
whenever the readings contain two distinct x components and two distinct y
components within the representable range, the bounds are non-degenerate. -/
theorem calibrate_bounds (readings : List vector)
    (hlen : readings.length = CALIBRATION_SAMPLES) :
    ((calibrate readings).1.x =
        (readings.map vector.x).foldl min running_min_init.x ∧
      (calibrate readings).1.y =
        (readings.map vector.y).foldl min running_min_init.y ∧
      (calibrate readings).2.x =
        (readings.map vector.x).foldl max running_max_init.x ∧
      (calibrate readings).2.y =
        (readings.map vector.y).foldl max running_max_init.y) ∧
    (∀ a ∈ readings, ∀ b ∈ readings, ∀ c ∈ readings, ∀ d ∈ readings,
      a.x ≠ b.x → c.y ≠ d.y →
      |a.x| ≤ 2047 → |b.x| ≤ 2047 → |c.y| ≤ 2047 → |d.y| ≤ 2047 →
      (calibrate readings).1.x < (calibrate readings).2.x ∧
        (calibrate readings).1.y < (calibrate readings).2.y) := by
  have hminx : (calibrate readings).1.x =
      (readings.map vector.x).foldl min running_min_init.x :=
    calibrate_fold_min_x readings (running_min_init, running_max_init)
  have hminy : (calibrate readings).1.y =
      (readings.map vector.y).foldl min running_min_init.y :=
    calibrate_fold_min_y readings (running_min_init, running_max_init)
  have hmaxx : (calibrate readings).2.x =
      (readings.map vector.x).foldl max running_max_init.x :=
    calibrate_fold_max_x readings (running_min_init, running_max_init)
  have hmaxy : (calibrate readings).2.y =
      (readings.map vector.y).foldl max running_max_init.y :=
    calibrate_fold_max_y readings (running_min_init, running_max_init)
  refine ⟨⟨hminx, hminy, hmaxx, hmaxy⟩, ?_⟩
  intro a ha b hb c hc d hd hxab hycd _ _ _ _
  have h1 : (calibrate readings).1.x ≤ a.x := by
    rw [hminx]; exact foldl_min_le _ _ _ (List.mem_map_of_mem vector.x ha)
  have h2 : (calibrate readings).1.x ≤ b.x := by
    rw [hminx]; exact foldl_min_le _ _ _ (List.mem_map_of_mem vector.x hb)
  have h3 : a.x ≤ (calibrate readings).2.x := by
    rw [hmaxx]; exact le_foldl_max _ _ _ (List.mem_map_of_mem vector.x ha)
  have h4 : b.x ≤ (calibrate readings).2.x := by
    rw [hmaxx]; exact le_foldl_max _ _ _ (List.mem_map_of_mem vector.x hb)
  have h5 : (calibrate readings).1.y ≤ c.y := by
    rw [hminy]; exact foldl_min_le _ _ _ (List.mem_map_of_mem vector.y hc)
  have h6 : (calibrate readings).1.y ≤ d.y := by
    rw [hminy]; exact foldl_min_le _ _ _ (List.mem_map_of_mem vector.y hd)
  have h7 : c.y ≤ (calibrate readings).2.y := by
    rw [hmaxy]; exact le_foldl_max _ _ _ (List.mem_map_of_mem vector.y hc)
  have h8 : d.y ≤ (calibrate readings).2.y := by
    rw [hmaxy]; exact le_foldl_max _ _ _ (List.mem_map_of_mem vector.y hd)
  omega

/-- A synthetic run of 70 readings containing two distinct x components and
two distinct y components, used to witness `calibrate_bounds`. -/
def sampleReadings : List vector :=
  ⟨0, 0, 0⟩ :: ⟨5, 7, 0⟩ :: List.replicate 68 ⟨0, 0, 0⟩

/-- Witness for C5 on a concrete 70-sample run with two distinct x values and
two distinct y values: the computed bounds are non-degenerate. -/
theorem calibrate_bounds_witness :
    (calibrate sampleReadings).1.x < (calibrate sampleReadings).2.x ∧
      (calibrate sampleReadings).1.y < (calibrate sampleReadings).2.y :=
  (calibrate_bounds sampleReadings (by decide)).2
    ⟨0, 0, 0⟩ (by decide) ⟨5, 7, 0⟩ (by decide)
    ⟨0, 0, 0⟩ (by decide) ⟨5, 7, 0⟩ (by decide)
    (by decide) (by decide) (by decide) (by decide) (by decide) (by decide)

set_option maxRecDepth 40000 in
lemma turnSpeed_bound_aux :
    ∀ r ∈ Finset.Icc (-180 : Int) 180, 5 ≤ |r| →
      100 < |turnSpeed r| ∧ |turnSpeed r| ≤ 300 := by
  decide

lemma turnSpeed_bound (r : Int) (h5 : 5 ≤ |r|) (h180 : |r| ≤ 180) :
    100 < |turnSpeed r| ∧ |turnSpeed r| ≤ 300 := by
  rw [abs_le] at h180
  exact turnSpeed_bound_aux r (Finset.mem_Icc.mpr h180) h5

/-- C10: every motor command issued by an iteration of `loop()` (from headings
in [0, 360)) has magnitude at most 300: the straight branch commands exactly
`(SPEED, SPEED)` then `(0, 0)`, and on the turning branch, where
`5 ≤ |relative_heading| ≤ 180`, the turn speed satisfies
`100 < |turnSpeed| ≤ 300` — this survives the 16-bit wraparound of the
product (wrapped magnitudes stay in 264..281), though the wrap flips the
commanded sign for `|relative_heading| ≥ 164`. -/
theorem loopStep_commands_bounded (target current resampled : Int)
    (ht0 : 0 ≤ target) (ht1 : target < 360)
    (hc0 : 0 ≤ current) (hc1 : current < 360) :
    (∀ cmd ∈ (loopStep target current resampled).commands,
        |cmd.1| ≤ 300 ∧ |cmd.2| ≤ 300) ∧
      (|relativeHeading current target| < DEVIATION_THRESHOLD →
        (loopStep target current resampled).commands =
          [(SPEED, SPEED), (0, 0)]) ∧
      (DEVIATION_THRESHOLD ≤ |relativeHeading current target| →
        100 < |turnSpeed (relativeHeading current target)| ∧
          |turnSpeed (relativeHeading current target)| ≤ 300 ∧
          (loopStep target current resampled).commands =
            [(turnSpeed (relativeHeading current target),
              -turnSpeed (relativeHeading current target))]) := by
  have hmem := relativeHeading_mem current target hc0 hc1 ht0 ht1
  by_cases h : |relativeHeading current target| < DEVIATION_THRESHOLD
  · refine ⟨?_, fun _ => ?_, fun hcon => absurd h (by omega)⟩
    · unfold loopStep
      rw [if_pos h]
      intro cmd hcmd
      simp only [List.mem_cons, List.not_mem_nil, or_false] at hcmd
      rcases hcmd with rfl | rfl <;> decide
    · unfold loopStep
      rw [if_pos h]
  · have h5 : 5 ≤ |relativeHeading current target| := by
      unfold DEVIATION_THRESHOLD at h; omega
    have h180 : |relativeHeading current target| ≤ 180 := by
      rw [abs_le]; exact hmem
    have hb := turnSpeed_bound _ h5 h180
    refine ⟨?_, fun hcon => absurd hcon h, fun _ => ⟨hb.1, hb.2, ?_⟩⟩
    · unfold loopStep
      rw [if_neg h]
      intro cmd hcmd
      simp only [List.mem_cons, List.not_mem_nil, or_false] at hcmd
      subst hcmd
      exact ⟨hb.2, by rw [abs_neg]; exact hb.2⟩
    · unfold loopStep
      rw [if_neg h]

/-- Witness for C10 at `target = 180`, `current = 0`, `resampled = 0`: all
commands issued are bounded by 300 in magnitude, and the turning branch
produces a speed strictly above 100 in magnitude. -/
theorem loopStep_commands_bounded_witness :
    (∀ cmd ∈ (loopStep 180 0 0).commands, |cmd.1| ≤ 300 ∧ |cmd.2| ≤ 300) ∧
      100 < |turnSpeed (relativeHeading 0 180)| :=
  ⟨(loopStep_commands_bounded 180 0 0 (by decide) (by decide) (by decide)
      (by decide)).1,
   ((loopStep_commands_bounded 180 0 0 (by decide) (by decide) (by decide)
      (by decide)).2.2 (by decide)).1⟩

lemma angle_bounds (m_min m_max v : vector) :
    -180 ≤ angle m_min m_max v ∧ angle m_min m_max v ≤ 180 := by
  have hpi := Real.pi_pos
  have ht1 : -Real.pi <
      atan2 (y_scaled m_min m_max v) (x_scaled m_min m_max v) :=
    Complex.neg_pi_lt_arg _
  have ht2 : atan2 (y_scaled m_min m_max v) (x_scaled m_min m_max v) ≤
      Real.pi := Complex.arg_le_pi _
  have ha2 : atan2 (y_scaled m_min m_max v) (x_scaled m_min m_max v) * 180 /
      Real.pi ≤ 180 := by
    rw [div_le_iff₀ hpi]
    nlinarith
  have ha1 : (-180 : ℝ) <
      atan2 (y_scaled m_min m_max v) (x_scaled m_min m_max v) * 180 /
        Real.pi := by
    rw [lt_div_iff₀ hpi]
    nlinarith
  constructor
  · unfold angle
    rw [round_eq]
    exact Int.le_floor.mpr (by push_cast; linarith)
  · unfold angle
    rw [round_eq]
    have h181 : (⌊atan2 (y_scaled m_min m_max v) (x_scaled m_min m_max v) *
        180 / Real.pi + 1 / 2⌋ : Int) < 181 :=
      Int.floor_lt.mpr (by push_cast; linarith)
    omega

/-- C2: for any vector and non-degenerate calibration bounds, `heading`
returns an integer in [0, 360); it is the rounded `atan2` angle in degrees,
shifted by 360 exactly when that rounded angle is negative. -/
theorem heading_range (m_min m_max v : vector)
    (hx : m_min.x < m_max.x) (hy : m_min.y < m_max.y) :
    (0 ≤ heading m_min m_max v ∧ heading m_min m_max v < 360) ∧
      (angle m_min m_max v < 0 →
        heading m_min m_max v = angle m_min m_max v + 360) ∧
      (0 ≤ angle m_min m_max v →
        heading m_min m_max v = angle m_min m_max v) := by
  have hb := angle_bounds m_min m_max v
  unfold heading
  split_ifs with h
  · exact ⟨⟨by omega, by omega⟩, fun _ => rfl, fun h2 => by omega⟩
  · exact ⟨⟨by omega, by omega⟩, fun h2 => by omega, fun _ => rfl⟩

/-- Witness for C2 at the spec's concrete vector and bounds: the heading is
in [0, 360). -/
theorem heading_range_witness :
    0 ≤ heading ⟨-100, -100, 0⟩ ⟨100, 100, 0⟩ ⟨100, 0, 0⟩ ∧
      heading ⟨-100, -100, 0⟩ ⟨100, 100, 0⟩ ⟨100, 0, 0⟩ < 360 :=
  (heading_range ⟨-100, -100, 0⟩ ⟨100, 100, 0⟩ ⟨100, 0, 0⟩
    (by decide) (by decide)).1

/-- C3: `heading` divides by `xDivisor` and `yDivisor` (the scaling steps are
exactly the divisions by them); under non-degenerate bounds both divisors are
nonzero, so the divide-by-zero case is unreachable, while degenerate bounds
(max = min on an axis) make the corresponding divisor zero. -/
theorem heading_divisor_guard (m_min m_max : vector) :
    (∀ v : vector, x_scaled m_min m_max v =
        2 * ((v.x - m_min.x : Int) : ℝ) / ((xDivisor m_min m_max : Int) : ℝ)
          - 1 ∧
      y_scaled m_min m_max v =
        2 * ((v.y - m_min.y : Int) : ℝ) / ((yDivisor m_min m_max : Int) : ℝ)
          - 1) ∧
      (m_min.x < m_max.x → xDivisor m_min m_max ≠ 0) ∧
      (m_min.y < m_max.y → yDivisor m_min m_max ≠ 0) ∧
      (m_max.x = m_min.x → xDivisor m_min m_max = 0) ∧
      (m_max.y = m_min.y → yDivisor m_min m_max = 0) := by
  refine ⟨fun v => ⟨rfl, rfl⟩, ?_, ?_, ?_, ?_⟩ <;>
    simp only [xDivisor, yDivisor] <;> omega

/-- Witness for C3 at concrete non-degenerate and degenerate bounds. -/
theorem heading_divisor_guard_witness :
    xDivisor ⟨-100, -100, 0⟩ ⟨100, 100, 0⟩ ≠ 0 ∧
      yDivisor ⟨-100, -100, 0⟩ ⟨100, 100, 0⟩ ≠ 0 ∧
      xDivisor ⟨7, -100, 0⟩ ⟨7, 100, 0⟩ = 0 :=
  ⟨(heading_divisor_guard ⟨-100, -100, 0⟩ ⟨100, 100, 0⟩).2.1 (by decide),
   (heading_divisor_guard ⟨-100, -100, 0⟩ ⟨100, 100, 0⟩).2.2.1 (by decide),
   (heading_divisor_guard ⟨7, -100, 0⟩ ⟨7, 100, 0⟩).2.2.2.1 (by decide)⟩

/-- C8: for `v = {100, 0}` and bounds `{-100..100}` on both axes, the scaled
components are `(1, 0)`, `atan2 0 1 = 0`, and the returned heading is 0. -/
theorem heading_east_concrete :
    x_scaled ⟨-100, -100, 0⟩ ⟨100, 100, 0⟩ ⟨100, 0, 0⟩ = 1 ∧
      y_scaled ⟨-100, -100, 0⟩ ⟨100, 100, 0⟩ ⟨100, 0, 0⟩ = 0 ∧
      atan2 0 1 = 0 ∧
      heading ⟨-100, -100, 0⟩ ⟨100, 100, 0⟩ ⟨100, 0, 0⟩ = 0 := by
  have hx : x_scaled ⟨-100, -100, 0⟩ ⟨100, 100, 0⟩ ⟨100, 0, 0⟩ = 1 := by
    unfold x_scaled xDivisor
    norm_num
  have hy : y_scaled ⟨-100, -100, 0⟩ ⟨100, 100, 0⟩ ⟨100, 0, 0⟩ = 0 := by
    unfold y_scaled yDivisor
    norm_num
  have hone : (⟨1, 0⟩ : ℂ) = 1 := rfl
  have harctwo : atan2 0 1 = 0 := by
    unfold atan2
    rw [hone, Complex.arg_one]
  have hang : angle ⟨-100, -100, 0⟩ ⟨100, 100, 0⟩ ⟨100, 0, 0⟩ = 0 := by
    unfold angle
    rw [hx, hy, harctwo]
    norm_num
  refine ⟨hx, hy, harctwo, ?_⟩
  unfold heading
  rw [hang]
  decide

/-- C9: the heading computation never looks at the z component — two vectors
agreeing on x and y produce the same heading for any bounds. -/
theorem heading_ignores_z (m_min m_max v1 v2 : vector)
    (hx : v1.x = v2.x) (hy : v1.y = v2.y) :
    heading m_min m_max v1 = heading m_min m_max v2 := by
  unfold heading angle x_scaled y_scaled
  rw [hx, hy]

/-- Witness for C9: two vectors differing only in z give the same heading. -/
theorem heading_ignores_z_witness :
    heading ⟨-100, -100, 0⟩ ⟨100, 100, 0⟩ ⟨100, 0, 5⟩ =
      heading ⟨-100, -100, 0⟩ ⟨100, 100, 0⟩ ⟨100, 0, -7⟩ :=
  heading_ignores_z ⟨-100, -100, 0⟩ ⟨100, 100, 0⟩ ⟨100, 0, 5⟩ ⟨100, 0, -7⟩
    rfl rfl
